import Mathlib

/-!
Verification of the cxresume split-view session picker
(`src/codex-rs/cxresume/src/tui/splitPicker.js` and the preview utilities
`selectRecentDialogMessages` / `formatPreviewBlocks` appended to it).

The JavaScript is shallowly embedded: each handler or helper becomes a pure
Lean function on an explicit state record; the effectful collaborators
(quick metadata extraction, full session parse, `fs.unlink`, the answer of a
confirmation dialog) become explicit parameters of the transition functions.
JS `Map`s become association lists with `Map.get`/`Map.set`/`Map.delete`
modelled by `alGet`/`alSet`/`alDelete`.
-/

namespace CxPicker

/-! ## Display width (model of the external `string-width` package)

`string-width` assigns each code point a column width of 0 (control and
combining characters), 2 (East-Asian wide / emoji), or 1 (everything else).
Only those three values and the concrete widths of ASCII, the bar character
and digits matter to the picker; the ranges below follow the package's
EastAsianWidth tables. -/

def isWideCp (n : Nat) : Bool :=
  (0x1100 ≤ n && n ≤ 0x115F) ||
  (0x2E80 ≤ n && n ≤ 0x303E) ||
  (0x3041 ≤ n && n ≤ 0x33FF) ||
  (0x3400 ≤ n && n ≤ 0x4DBF) ||
  (0x4E00 ≤ n && n ≤ 0x9FFF) ||
  (0xA000 ≤ n && n ≤ 0xA4CF) ||
  (0xAC00 ≤ n && n ≤ 0xD7A3) ||
  (0xF900 ≤ n && n ≤ 0xFAFF) ||
  (0xFE30 ≤ n && n ≤ 0xFE4F) ||
  (0xFF00 ≤ n && n ≤ 0xFF60) ||
  (0xFFE0 ≤ n && n ≤ 0xFFE6) ||
  (0x1F300 ≤ n && n ≤ 0x1F64F) ||
  (0x20000 ≤ n && n ≤ 0x2FFFD) ||
  (0x30000 ≤ n && n ≤ 0x3FFFD)

def isZeroWidthCp (n : Nat) : Bool :=
  (0x300 ≤ n && n ≤ 0x36F) ||
  (0x200B ≤ n && n ≤ 0x200F) ||
  (0xFE00 ≤ n && n ≤ 0xFE0F)

def charWidth (c : Char) : Nat :=
  if c.toNat == 0 then 0
  else if c.toNat < 32 || (127 ≤ c.toNat && c.toNat < 160) then 0
  else if isZeroWidthCp c.toNat then 0
  else if isWideCp c.toNat then 2
  else 1

/-- `stringWidth(s)`: total display-column width of a string. -/
def strWidth (s : String) : Nat := (s.data.map charWidth).sum

theorem charWidth_le_two (c : Char) : charWidth c ≤ 2 := by
  unfold charWidth
  split_ifs <;> omega

theorem strWidth_empty : strWidth "" = 0 := rfl

theorem strWidth_data (s : String) : strWidth s = (s.data.map charWidth).sum := rfl

theorem strWidth_append (a b : String) :
    strWidth (a ++ b) = strWidth a + strWidth b := by
  simp [strWidth, String.data_append]

theorem strWidth_push (s : String) (c : Char) :
    strWidth (s.push c) = strWidth s + charWidth c := by
  cases s with
  | mk l => simp [strWidth, String.push]

theorem strWidth_singleton (c : Char) :
    strWidth (String.singleton c) = charWidth c := by
  simp [String.singleton, strWidth_push, strWidth_empty]

/-! ## Dialog messages (`parseSessionFile` output shape) -/

/-- A timestamp reduced to the wall-clock fields that `dayjs(...).format('HH:mm:ss')`
displays. -/
structure ClockTime where
  hh : Fin 24
  mm : Fin 60
  ss : Fin 60
deriving DecidableEq

structure Message where
  role : String
  text : String
  timestamp : Option ClockTime := none
deriving DecidableEq

/-- `dayjs` two-digit zero-padded field (values are < 100 in every use). -/
def pad2 (n : Nat) : String := ⟨[Nat.digitChar (n / 10 % 10), Nat.digitChar (n % 10)]⟩

/-- `dayjs(t).format('HH:mm:ss')`. -/
def formatHHMMSS (t : ClockTime) : String :=
  pad2 t.hh.val ++ ":" ++ pad2 t.mm.val ++ ":" ++ pad2 t.ss.val

theorem digitChar_width : ∀ d : Nat, d < 10 → charWidth (Nat.digitChar d) = 1 := by
  decide

theorem strWidth_pad2 (n : Nat) : strWidth (pad2 n) = 2 := by
  have h1 := digitChar_width (n / 10 % 10) (Nat.mod_lt _ (by omega))
  have h2 := digitChar_width (n % 10) (Nat.mod_lt _ (by omega))
  simp [pad2, strWidth, h1, h2]

theorem strWidth_formatHHMMSS (t : ClockTime) : strWidth (formatHHMMSS t) = 8 := by
  have hc : strWidth (":") = 1 := by decide
  simp [formatHHMMSS, strWidth_append, strWidth_pad2, hc]

/-! ## `selectRecentDialogMessages` (preview utilities) -/

/-- `m.role === 'user' || m.role === 'assistant'`. -/
def isDialog (m : Message) : Bool := m.role == "user" || m.role == "assistant"

/-- `selectRecentDialogMessages(messages, { limit })`: walking from the end,
collect at most `limit` dialog messages, then restore original order.
`limit = none` models `Number.POSITIVE_INFINITY` (no truncation). -/
def selectRecentDialogMessages (messages : List Message) (limit : Option Nat) :
    List Message :=
  let dialog := messages.filter isDialog
  match limit with
  | none => dialog
  | some n => (dialog.reverse.take n).reverse

/-! ## `formatPreviewBlocks` (preview utilities)

The TUI calls it with `chalkLib = chalk`, which only inserts zero-display-width
ANSI color codes around the role/time strings; the embedding follows the
`chalkLib = null` branch of the source, which produces the same display
columns. -/

/-- `body.split(/\n/)` on the character list: split on `'\n'`. -/
def splitNl : List Char → List (List Char)
  | [] => [[]]
  | c :: rest =>
    let r := splitNl rest
    if c = '\n' then [] :: r
    else
      match r with
      | [] => [[c]]
      | h :: t => (c :: h) :: t

def splitLines (s : String) : List String := (splitNl s.data).map (fun cs => ⟨cs⟩)

/-- The `for (const ch of line)` loop of `wrapPlainLine`: returns the flushed
segments (in order) and the final value of `cur`. -/
def wrapGo (maxWidth : Nat) : List Char → String → Nat → List String × String
  | [], cur, _ => ([], cur)
  | c :: rest, cur, width =>
    let w := charWidth c
    if width + w > maxWidth && cur != "" then
      let r := wrapGo maxWidth rest (String.singleton c) w
      (cur :: r.1, r.2)
    else
      wrapGo maxWidth rest (cur.push c) (width + w)

/-- `wrapPlainLine(line, maxWidth)`: hard-wrap a newline-free line so no
segment exceeds `maxWidth` display columns; the final
`if (cur || line === '') result.push(cur)` is the trailing conditional. -/
def wrapPlainLine (line : String) (maxWidth : Nat) : List String :=
  let r := wrapGo maxWidth line.data "" 0
  if r.2 != "" || line == "" then r.1 ++ [r.2] else r.1

/-- The lines `formatPreviewBlocks` emits for a single message: a header
(`'┃ ' + role + ' ' + time`), the body lines (split on newlines, then
hard-wrapped to `wrapWidth - stringWidth('┃ ')` when `wrapWidth` is a number
greater than `prefixWidth + 1`), and a trailing blank separator line.
`barPfx`/`pfxWidth` are the source's `barPrefix`/`prefixWidth`. -/
def formatBlockLines (it : Message) (wrapWidth : Option Nat) : List String :=
  let ts := match it.timestamp with
    | some t => formatHHMMSS t
    | none => ""
  let isUser := it.role == "user"
  let roleLabel := if isUser then "User" else "AI"
  let barPfx := "┃ "
  let pfxWidth := strWidth ("┃ ")
  let header := barPfx ++ roleLabel ++ " " ++ ts
  let rawLines := splitLines it.text
  let contentWidth : Option Nat :=
    match wrapWidth with
    | some w => if pfxWidth + 1 < w then some (w - pfxWidth) else none
    | none => none
  let bodyLines := (rawLines.map (fun raw =>
    match contentWidth with
    | none => [barPfx ++ raw]
    | some cw => (wrapPlainLine raw cw).map (fun seg => barPfx ++ seg))).flatten
  header :: (bodyLines ++ [""])

/-- The `out` array of `formatPreviewBlocks` over all items. -/
def formatPreviewBlocksList (items : List Message) (wrapWidth : Option Nat) :
    List String :=
  (items.map (fun it => formatBlockLines it wrapWidth)).flatten

/-- `formatPreviewBlocks(items, { chalkLib, wrapWidth })` = `out.join('\n')`. -/
def formatPreviewBlocks (items : List Message) (wrapWidth : Option Nat) : String :=
  String.intercalate ("\n") (formatPreviewBlocksList items wrapWidth)

/-- `safeString(it.text).replace(/\r/g, '')`. -/
def stripCR (s : String) : String := ⟨s.data.filter (fun c => c != '\r')⟩

/-- The item pipeline of `buildDialogPreviewBlocks`: select all dialog
messages (`limit = Number.POSITIVE_INFINITY`), drop roles listed in `hide`,
strip carriage returns. -/
def buildDialogPreviewItems (messages : List Message) (hide : List String) :
    List Message :=
  ((selectRecentDialogMessages messages none).filter (fun it =>
      !(it.role == "user" && hide.contains ("user")) &&
      !(it.role == "assistant" && hide.contains ("assistant")))).map
    (fun it => { it with text := stripCR it.text })

/-- `buildDialogPreviewBlocks(messages, { hide, wrapWidth })`. -/
def buildDialogPreviewBlocks (messages : List Message) (hide : List String)
    (wrapWidth : Option Nat) : String :=
  formatPreviewBlocks (buildDialogPreviewItems messages hide) wrapWidth

/-! ## Width bound of the formatter -/

theorem wrapGo_bound (mw : Nat) (h2 : 2 ≤ mw) :
    ∀ (cs : List Char) (cur : String) (width : Nat),
      strWidth cur = width → width ≤ mw →
      (∀ s ∈ (wrapGo mw cs cur width).1, strWidth s ≤ mw) ∧
      strWidth (wrapGo mw cs cur width).2 ≤ mw := by
  intro cs
  induction cs with
  | nil =>
    intro cur width hw hle
    refine ⟨fun s hs => absurd hs (by simp [wrapGo]), ?_⟩
    simpa [wrapGo, hw] using hle
  | cons c rest ih =>
    intro cur width hw hle
    simp only [wrapGo]
    split
    case isTrue hcond =>
      have hr := ih (String.singleton c) (charWidth c) (strWidth_singleton c)
        (le_trans (charWidth_le_two c) h2)
      refine ⟨?_, hr.2⟩
      intro s hs
      rcases List.mem_cons.mp hs with h | h
      · subst h; omega
      · exact hr.1 s h
    case isFalse hcond =>
      have hwc : width + charWidth c ≤ mw := by
        rcases Bool.and_eq_false_iff.mp (Bool.not_eq_true _ ▸ hcond) with h | h
        · simp only [decide_eq_false_iff_not, not_lt] at h
          omega
        · have hc : cur = "" := by
            simpa using h
          have : width = 0 := by
            rw [← hw, hc, strWidth_empty]
          have := charWidth_le_two c
          omega
      exact ih (cur.push c) (width + charWidth c) (by rw [strWidth_push, hw]) hwc

theorem wrapPlainLine_width (line : String) (mw : Nat) (h2 : 2 ≤ mw) :
    ∀ s ∈ wrapPlainLine line mw, strWidth s ≤ mw := by
  intro s hs
  have h := wrapGo_bound mw h2 line.data "" 0 rfl (Nat.zero_le mw)
  simp only [wrapPlainLine] at hs
  split at hs
  · rcases List.mem_append.mp hs with h1 | h1
    · exact h.1 s h1
    · rcases List.mem_singleton.mp h1 with rfl
      exact h.2
  · exact h.1 s hs

theorem formatBlockLines_width (it : Message) :
    ∀ l ∈ formatBlockLines it (some 20), strWidth l ≤ 20 := by
  have hpw : strWidth ("┃ ") = 2 := by decide
  intro l hl
  simp only [formatBlockLines, hpw] at hl
  norm_num at hl
  rcases hl with h1 | h1 | h1
  · subst h1
    have hts : strWidth (match it.timestamp with
        | some t => formatHHMMSS t
        | none => "") ≤ 8 := by
      cases it.timestamp with
      | some t => simp [strWidth_formatHHMMSS]
      | none => simp [strWidth_empty]
    have hrole : strWidth (if it.role = "user" then "User" else "AI") ≤ 4 := by
      split <;> decide
    have hsp : strWidth (" ") = 1 := by decide
    simp only [strWidth_append, hpw, hsp]
    omega
  · obtain ⟨raw, hraw, seg, hseg, hleq⟩ := h1
    subst hleq
    have hw := wrapPlainLine_width raw 18 (by omega) seg hseg
    simp only [strWidth_append, hpw]
    omega
  · subst h1
    simp [strWidth_empty]

/-- Dropping the non-dialog `"tool"` turns first does not change the selected
dialog messages: `selectRecentDialogMessages` already discards them. -/
theorem selectRecent_filter_tool (messages : List Message) :
    selectRecentDialogMessages (messages.filter (fun m => m.role != "tool")) none
      = selectRecentDialogMessages messages none := by
  simp only [selectRecentDialogMessages]
  rw [List.filter_filter]
  apply List.filter_congr
  intro m _
  cases hx : isDialog m with
  | false => simp [hx]
  | true =>
    simp only [isDialog, Bool.or_eq_true, beq_iff_eq] at hx
    rcases hx with h | h <;> simp [isDialog, h]

/-- C7: with `hiddenRoles = {"tool"}` and `wrapWidth = 20`, every visual line
of the preview (each element of the source's `out` array, which contains no
embedded newline) has display width at most 20, and turns with role `"tool"`
contribute no output lines (removing them first yields the identical
output). -/
theorem formatHidesToolAndWrapsTo20 (messages : List Message) :
    (∀ l ∈ formatPreviewBlocksList
        (buildDialogPreviewItems messages [("tool" : String)]) (some 20),
        strWidth l ≤ 20) ∧
    buildDialogPreviewBlocks messages [("tool" : String)] (some 20)
      = buildDialogPreviewBlocks (messages.filter (fun m => m.role != "tool"))
          [("tool" : String)] (some 20) := by
  constructor
  · intro l hl
    simp only [formatPreviewBlocksList, List.mem_flatten, List.mem_map] at hl
    obtain ⟨ls, ⟨it, hit, rfl⟩, hls⟩ := hl
    exact formatBlockLines_width it l hls
  · unfold buildDialogPreviewBlocks buildDialogPreviewItems
    rw [selectRecent_filter_tool]

/-- Witness for C7 at a concrete input: a user turn and a tool turn. -/
theorem formatHidesToolAndWrapsTo20_witness :
    strWidth ("┃ User ") ≤ 20 ∧
    buildDialogPreviewBlocks
        [{ role := "user", text := "hello", timestamp := none },
         { role := "tool", text := "xyz", timestamp := none }]
        [("tool" : String)] (some 20)
      = buildDialogPreviewBlocks
          (List.filter (fun m => m.role != "tool")
            [{ role := "user", text := "hello", timestamp := none },
             { role := "tool", text := "xyz", timestamp := none }])
          [("tool" : String)] (some 20) :=
  ⟨(formatHidesToolAndWrapsTo20
      [{ role := "user", text := "hello", timestamp := none },
       { role := "tool", text := "xyz", timestamp := none }]).1
      ("┃ User ") (by decide),
   (formatHidesToolAndWrapsTo20
      [{ role := "user", text := "hello", timestamp := none },
       { role := "tool", text := "xyz", timestamp := none }]).2⟩

/-- C8: the preview formatter is deterministic — it is a pure function of the
turn list, the hidden-roles option and the wrap width (the embedding takes no
other input, modelling the absence of I/O and shared mutable state), so two
calls on identical arguments give identical strings. -/
theorem formatDeterministic (m1 m2 : List Message) (hide1 hide2 : List String)
    (w1 w2 : Option Nat) (hm : m1 = m2) (hh : hide1 = hide2) (hw : w1 = w2) :
    buildDialogPreviewBlocks m1 hide1 w1 = buildDialogPreviewBlocks m2 hide2 w2 := by
  subst hm; subst hh; subst hw; rfl

/-- Witness for C8 at a concrete input. -/
theorem formatDeterministic_witness :
    buildDialogPreviewBlocks [{ role := "user", text := "hi", timestamp := none }]
        [] (some 20)
      = buildDialogPreviewBlocks [{ role := "user", text := "hi", timestamp := none }]
        [] (some 20) :=
  formatDeterministic _ _ _ _ _ _ rfl rfl rfl

/-- C10: formatting an empty turn list yields the empty string, for every
wrap width and every hidden-roles option — no header, body or separator
line is emitted. -/
theorem formatEmptyIsEmpty (wrapWidth : Option Nat) (hide : List String) :
    formatPreviewBlocks [] wrapWidth = "" ∧
    buildDialogPreviewBlocks [] hide wrapWidth = "" := by
  exact ⟨rfl, rfl⟩

/-! ## JS `Map` model (the three caches)

Only `get`, `set`, `has` and `delete` are used by the picker; an association
list with these operations is observationally equivalent (the picker never
iterates a cache except `previewCache.keys()` during the deletion purge,
which is modelled by the corresponding filter). -/

def alGet {α : Type} (l : List (String × α)) (k : String) : Option α :=
  (l.find? (fun p => p.1 == k)).map (fun p => p.2)

/-- `Map.set`: afterwards `k` maps to `v`, other keys unchanged. -/
def alSet {α : Type} (l : List (String × α)) (k : String) (v : α) :
    List (String × α) :=
  l.filter (fun p => p.1 != k) ++ [(k, v)]

/-- `Map.delete`. -/
def alDelete {α : Type} (l : List (String × α)) (k : String) : List (String × α) :=
  l.filter (fun p => p.1 != k)

theorem alGet_delete {α : Type} (l : List (String × α)) (k : String) :
    alGet (alDelete l k) k = none := by
  apply Option.map_eq_none'.mpr
  apply List.find?_eq_none.mpr
  intro x hx
  have hne : x.1 ≠ k := by
    have := (List.mem_filter.mp hx).2
    simpa using this
  simpa using hne

theorem find?_filter_of_imp {α : Type} (l : List α) (p q : α → Bool)
    (h : ∀ x, p x = true → q x = true) :
    (l.filter q).find? p = l.find? p := by
  induction l with
  | nil => rfl
  | cons a t ih =>
    by_cases hq : q a = true
    · by_cases hp : p a = true
      · simp [List.filter_cons, hq, List.find?_cons_of_pos, hp]
      · have hp2 : p a = false := by simpa using hp
        simp [List.filter_cons, hq, List.find?_cons_of_neg, hp2, ih]
    · have hq2 : q a = false := by simpa using hq
      have hp2 : p a = false := by
        cases hpa : p a with
        | false => rfl
        | true => exact absurd (h a hpa) hq
      simp [List.filter_cons, hq2, List.find?_cons_of_neg, hp2, ih]

theorem alGet_set_ne {α : Type} (l : List (String × α)) (k k2 : String) (v : α)
    (h : k ≠ k2) : alGet (alSet l k2 v) k = alGet l k := by
  unfold alGet alSet
  rw [List.find?_append]
  have h1 : List.find? (fun p => p.1 == k) [(k2, v)] = none := by
    apply List.find?_eq_none.mpr
    intro x hx
    rcases List.mem_singleton.mp hx with rfl
    simpa using (Ne.symm h)
  rw [h1]
  rw [find?_filter_of_imp]
  · cases List.find? (fun p => p.1 == k) l <;> rfl
  · intro x hx
    have : x.1 = k := by simpa using hx
    simp [this, h]

/-- Any key satisfying `pred` cannot be found after filtering on `!pred`. -/
theorem alGet_filter_not_pred {α : Type} (l : List (String × α))
    (pred : String → Bool) (k : String) (hk : pred k = true) :
    alGet (l.filter (fun p => !(pred p.1))) k = none := by
  apply Option.map_eq_none'.mpr
  apply List.find?_eq_none.mpr
  intro x hx
  have h1 : pred x.1 = false := by
    have := (List.mem_filter.mp hx).2
    simpa using this
  intro hxk
  have : x.1 = k := by simpa using hxk
  rw [this, hk] at h1
  cases h1

/-- `key.startsWith(prefixString)`. -/
def strStartsWith (s p : String) : Bool := p.data.isPrefixOf s.data

theorem strStartsWith_append (p rest : String) :
    strStartsWith (p ++ rest) p = true := by
  simp [strStartsWith, String.data_append, List.isPrefixOf_iff_prefix]

/-! ## The preview-cache key `` `${path}::${width}` ``

The width is interpolated as its decimal digits; since digits are never `':'`
a key determines its path whenever the paths themselves are fixed strings:
`a ++ "::" ++ digits` and `b ++ "::" ++ digits'` coincide only if `a = b`.
(The spec flags this string-concatenated compound key as a design smell; for
the purge claims only this injectivity property is needed.) -/

def natDigits (n : Nat) : List Char :=
  if _h : n < 10 then [Nat.digitChar n]
  else natDigits (n / 10) ++ [Nat.digitChar (n % 10)]
decreasing_by exact Nat.div_lt_self (by omega) (by omega)

/-- `` `${n}` `` for a natural number. -/
def natStr (n : Nat) : String := ⟨natDigits n⟩

theorem digitChar_ne_colon : ∀ d : Nat, d < 10 → Nat.digitChar d ≠ ':' := by
  decide

theorem natDigits_ne_colon (n : Nat) : ∀ c ∈ natDigits n, c ≠ ':' := by
  induction n using Nat.strong_induction_on with
  | _ n ih =>
    rw [natDigits]
    split
    · intro c hc
      rcases List.mem_singleton.mp hc with rfl
      exact digitChar_ne_colon n (by omega)
    · intro c hc
      rcases List.mem_append.mp hc with h1 | h1
      · exact ih (n / 10) (Nat.div_lt_self (by omega) (by omega)) c h1
      · rcases List.mem_singleton.mp h1 with rfl
        exact digitChar_ne_colon (n % 10) (Nat.mod_lt _ (by omega))

theorem colon2_nil (b d e : List Char) (hd : ∀ c ∈ d, c ≠ ':')
    (h : (':' :: ':' :: d : List Char) = b ++ (':' :: ':' :: e)) : b = [] := by
  cases b with
  | nil => rfl
  | cons x xs =>
    injection h with h1 h2
    cases xs with
    | nil =>
      injection h2 with h3 h4
      exact absurd rfl (hd ':' (by rw [h4]; exact List.mem_cons_self _ _))
    | cons y ys =>
      injection h2 with h3 h4
      exact absurd rfl
        (hd ':' (by rw [h4]; exact List.mem_append_right _ (List.mem_cons_self _ _)))

theorem append_colon2_inj (a : List Char) :
    ∀ (b d e : List Char), (∀ c ∈ d, c ≠ ':') → (∀ c ∈ e, c ≠ ':') →
      a ++ (':' :: ':' :: d) = b ++ (':' :: ':' :: e) → a = b := by
  induction a with
  | nil =>
    intro b d e hd he h
    exact (colon2_nil b d e hd (by simpa using h)).symm
  | cons x xs ih =>
    intro b d e hd he h
    cases b with
    | nil =>
      have h0 := colon2_nil (x :: xs) e d he (by simpa using h.symm)
      exact absurd h0 (by simp)
    | cons y ys =>
      injection h with h1 h2
      rw [h1, ih ys d e hd he h2]

/-- Injectivity of the preview-cache key in the path component. -/
theorem cacheKey_path_inj (a b : String) (n m : Nat)
    (h : a ++ "::" ++ natStr n = b ++ "::" ++ natStr m) : a = b := by
  have hd := natDigits_ne_colon n
  have he := natDigits_ne_colon m
  have hcol : ("::" : String).data = [':', ':'] := rfl
  have h2 : a.data ++ (':' :: ':' :: natDigits n)
      = b.data ++ (':' :: ':' :: natDigits m) := by
    have h3 := congrArg String.data h
    simp only [String.data_append, hcol, List.append_assoc] at h3
    simpa [natStr] using h3
  have h4 := append_colon2_inj a.data b.data (natDigits n) (natDigits m) hd he h2
  cases a with
  | mk la =>
    cases b with
    | mk lb => exact congrArg String.mk h4

/-! ## Picker state (`pickSessionSplitTUI` closure variables)

The handler closures of `pickSessionSplitTUI` mutate a fixed set of
variables (`visibleFiles`, `currentPage`, `pageItems`, `selectedIndex`,
`fullView`, `modalActive`, `destroyed`, the three caches, `editedArgs`,
`leftW`) and the content of the preview box; `PickerState` collects them.
`modals` is the stack of currently attached overlay boxes, `resolved`
records the (single) resolution of the returned promise, and `notice`
the text of the dismissible "Delete Failed" overlay. `grabKeys` is the
blessed screen's key-grab flag: while a focused `inputOnFocus` textbox is
reading input (as in the edit-options modal), `readInput` sets
`screen.grabKeys` and the screen dispatches no `key <name>` events to
`screen.key` listeners, so every global handler is inert until the input
closes. -/

structure SessionFile where
  path : String
  rel : String
  mtime : Nat
deriving DecidableEq

structure SessionMeta where
  id : Option String := none
  cwd : Option String := none
  startTime : Option Nat := none
deriving DecidableEq

structure MsgSummary where
  count : Nat
  lastRole : String
deriving DecidableEq

/-- Result of `parseSessionFile`. -/
structure ParseResult where
  meta : SessionMeta
  messages : List Message
deriving DecidableEq

inductive Action where
  | resume (path : String) (extraArgs : String)
  | startNew (workingDir : Option String) (extraArgs : String)
  | workspaceCreate
deriving DecidableEq

inductive ModalKind where
  | delete
  | editOptions
deriving DecidableEq

def ITEMS_PER_PAGE : Nat := 30

def gap : Nat := 1

structure PickerState where
  visibleFiles : List SessionFile
  currentPage : Nat
  pageItems : List SessionFile
  selectedIndex : Int
  fullView : Bool
  leftW : Nat
  screenWidth : Nat
  modalActive : Bool
  modals : List ModalKind
  grabKeys : Bool
  destroyed : Bool
  resolved : Option (Option Action)
  metaCache : List (String × SessionMeta)
  msgSummaryCache : List (String × MsgSummary)
  previewCache : List (String × String)
  previewContent : String
  editedArgs : String
  notice : Option String
  hide : List String
  workspaceMode : Bool
deriving DecidableEq

/-- `resolve(v)`: a JS promise resolves at most once. -/
def resolveWith (s : PickerState) (v : Option Action) : PickerState :=
  match s.resolved with
  | some _ => s
  | none => { s with resolved := some v }

/-- `updatePageItems()`: recompute the slice for `currentPage` and reset the
selection to 0 (the item boxes it rebuilds are display-only). -/
def updatePageItems (s : PickerState) : PickerState :=
  let start := s.currentPage * ITEMS_PER_PAGE
  let stop := min s.visibleFiles.length (start + ITEMS_PER_PAGE)
  { s with pageItems := (s.visibleFiles.drop start).take (stop - start),
           selectedIndex := 0 }

/-- `setSelectedIndex(idx)`: out-of-range indices are ignored. -/
def setSelectedIndexSt (s : PickerState) (idx : Int) : PickerState :=
  if idx < 0 ∨ (s.pageItems.length : Int) ≤ idx then s
  else { s with selectedIndex := idx }

/-- `selectedFile()` = `pageItems[selectedIndex]` (`undefined` out of range). -/
def selectedFile (s : PickerState) : Option SessionFile :=
  if s.selectedIndex < 0 then none
  else s.pageItems[s.selectedIndex.toNat]?

/-- `getPreviewInnerWidth()`. In JS a negative intermediate is clamped by the
final `Math.max(10, ...)`; truncated `Nat` subtraction lands in the same
clamp. -/
def getPreviewInnerWidth (s : PickerState) : Nat :=
  let total := s.screenWidth
  let rbWidth := if s.fullView then total else total - (s.leftW + gap)
  max 10 (rbWidth - 2)

/-- `applyLayout()` as far as state is concerned: in split view `leftW` is
recomputed as `Math.max(30, Math.floor(totalW * 0.35))` (exact rational
floor here); the rest of the function moves boxes, which is display-only. -/
def applyLayout (s : PickerState) : PickerState :=
  if !s.fullView then { s with leftW := max 30 (s.screenWidth * 35 / 100) } else s

/-- The `lastRole` computation shared by the summary sites. -/
def lastDialogRole (dialog : List Message) : String :=
  match dialog.getLast? with
  | some m => if m.role == "user" then "User" else "Assistant"
  | none => "-"

/-- `updatePreviewForIndex(idx)`: serve the preview from the
`(path, width)`-keyed cache, otherwise parse the file, record the message
summary, cache and display the freshly rendered preview. A parse failure
only replaces the preview text. (The transient `'Loading…'` content and the
info-box update are display-only and omitted.) -/
def updatePreviewForIndex (parse : String → Option ParseResult) (idx : Int)
    (s : PickerState) : PickerState :=
  if idx < 0 ∨ (s.pageItems.length : Int) ≤ idx then s
  else
    match s.pageItems[idx.toNat]? with
    | none => s
    | some f =>
      let wrapW := getPreviewInnerWidth s
      let cacheKey := f.path ++ "::" ++ natStr wrapW
      match alGet s.previewCache cacheKey with
      | some body => { s with previewContent := body }
      | none =>
        match parse f.path with
        | none => { s with previewContent := "Preview failed" }
        | some parsed =>
          let dialog := parsed.messages.filter isDialog
          let body := buildDialogPreviewBlocks parsed.messages s.hide (some wrapW)
          { s with
              msgSummaryCache :=
                alSet s.msgSummaryCache f.path ⟨dialog.length, lastDialogRole dialog⟩,
              previewCache := alSet s.previewCache cacheKey body,
              previewContent := body }

/-- `loadMeta(i)` with the quick-extract outcome supplied by `fetch`
(`none` = the extraction threw). -/
def loadMeta (fetch : String → Option SessionMeta) (i : Int) (s : PickerState) :
    PickerState :=
  match (if i < 0 then none else s.pageItems[i.toNat]?) with
  | none => s
  | some f =>
    if (alGet s.metaCache f.path).isSome then s
    else
      match fetch f.path with
      | some m => { s with metaCache := alSet s.metaCache f.path m }
      | none => s

/-- `loadSummary(i)` with the full-parse outcome supplied by `parse`. -/
def loadSummary (parse : String → Option ParseResult) (i : Int) (s : PickerState) :
    PickerState :=
  match (if i < 0 then none else s.pageItems[i.toNat]?) with
  | none => s
  | some f =>
    if (alGet s.msgSummaryCache f.path).isSome then s
    else
      match parse f.path with
      | none => s
      | some parsed =>
        let dialog := parsed.messages.filter isDialog
        { s with msgSummaryCache :=
            alSet s.msgSummaryCache f.path ⟨dialog.length, lastDialogRole dialog⟩ }

/-! ## Navigation keys -/

inductive NavKey where
  | up
  | down
  | pageup
  | pagedown
  | home
  | «end»
deriving DecidableEq

/-- The `switch (k)` of the `navKeys` handler. -/
def navTarget (k : NavKey) (len sel : Int) : Int :=
  match k with
  | .up => max 0 (sel - 1)
  | .down => min (len - 1) (sel + 1)
  | .pageup => max 0 (sel - 5)
  | .pagedown => min (len - 1) (sel + 5)
  | .home => 0
  | .«end» => len - 1

/-- The `screen.key(k)` handler for `k ∈ navKeys`: clamp the selection,
apply it, load the preview and the neighbours' meta/summary. -/
def pressNav (fetch : String → Option SessionMeta)
    (parse : String → Option ParseResult) (k : NavKey) (s : PickerState) :
    PickerState :=
  if s.modalActive then s
  else
    let sel := navTarget k (s.pageItems.length : Int) s.selectedIndex
    let s1 := setSelectedIndexSt s sel
    let s2 := updatePreviewForIndex parse sel s1
    let s3 := loadMeta fetch sel s2
    let s4 := loadSummary parse sel s3
    let s5 := if sel + 1 < (s4.pageItems.length : Int) then loadMeta fetch (sel + 1) s4 else s4
    let s6 := if 0 ≤ sel - 1 then loadMeta fetch (sel - 1) s5 else s5
    let s7 := if sel + 1 < (s6.pageItems.length : Int) then loadSummary parse (sel + 1) s6 else s6
    if 0 ≤ sel - 1 then loadSummary parse (sel - 1) s7 else s7

/-! ## Modal-related handlers -/

/-- The `f` (toggle full view) handler; the scroll-to-bottom call is
display-only. -/
def pressF (s : PickerState) : PickerState :=
  if s.modalActive then s
  else applyLayout { s with fullView := !s.fullView }

/-! ## Deletion -/

/-- Outcomes of the effectful steps inside `deleteSelectedFile`. -/
structure DeleteEnv where
  /-- what `extractSessionMetaQuick` would return on a metadata-cache miss
  (`none` = it threw). -/
  fetchMeta : Option SessionMeta
  /-- the answer of `confirmDeleteDialog` (`Y`/`enter` on Yes = `true`). -/
  confirmed : Bool
  /-- whether `fs.unlink` succeeded. -/
  unlinkOk : Bool
  /-- the error message when `fs.unlink` threw. -/
  unlinkErr : String
  /-- `parseSessionFile`, for the follow-up preview load. -/
  parse : String → Option ParseResult

/-- The part of `deleteSelectedFile()` that runs after `fs.unlink`
succeeded (factored out of `deleteSelectedFile` below for reuse in proofs):
purge the three caches, drop the path from `visibleFiles`, exit when the
list became empty, otherwise clamp the page and the selection and reload the
preview. -/
def deleteApply (parse : String → Option ParseResult) (f : SessionFile)
    (s0 : PickerState) : PickerState :=
  -- Remove from caches
  let s1 := { s0 with
    metaCache := alDelete s0.metaCache f.path,
    msgSummaryCache := alDelete s0.msgSummaryCache f.path,
    previewCache := s0.previewCache.filter
      (fun p => !(strStartsWith p.1 (f.path ++ "::"))) }
  -- Remove from lists
  let s2 := { s1 with
    visibleFiles := s1.visibleFiles.filter (fun it => it.path != f.path) }
  -- If no more files, exit
  if s2.visibleFiles.isEmpty then { s2 with destroyed := true }
  else
    -- Adjust current page if needed
    let totalPages :=
      max 1 ((s2.visibleFiles.length + ITEMS_PER_PAGE - 1) / ITEMS_PER_PAGE)
    let s3 := if totalPages ≤ s2.currentPage
      then { s2 with currentPage := totalPages - 1 } else s2
    let prevSel := s3.selectedIndex
    let s4 := updatePageItems s3
    -- pick nearest index
    let newSel : Int := max 0 (min prevSel ((s4.pageItems.length : Int) - 1))
    let s5 := setSelectedIndexSt s4 newSel
    updatePreviewForIndex parse newSel s5

/-- The opening lines of `deleteSelectedFile()`: on a metadata-cache miss the
quick meta is fetched (to show the id in the dialog) and cached — a cache
mutation that precedes the dialog and the unlink. -/
def warmMetaForDialog (fetchMeta : Option SessionMeta) (f : SessionFile)
    (s : PickerState) : PickerState :=
  match alGet s.metaCache f.path with
  | some _ => s
  | none =>
    match fetchMeta with
    | some m => { s with metaCache := alSet s.metaCache f.path m }
    | none => s

/-- `deleteSelectedFile()`. `confirmDeleteDialog` sets `modalActive` while
the dialog is open and resets it in `finish`, so across this function the
flag is unchanged; its answer is `env.confirmed`. -/
def deleteSelectedFile (env : DeleteEnv) (s : PickerState) : PickerState :=
  match selectedFile s with
  | none => s
  | some f =>
    let s0 := warmMetaForDialog env.fetchMeta f s
    if !env.confirmed then s0
    else if !env.unlinkOk then
      -- `fs.unlink` threw: dismissible "Delete Failed" overlay, then return
      { s0 with notice := some env.unlinkErr }
    else deleteApply env.parse f s0

/-- The `d` key handler. -/
def pressD (env : DeleteEnv) (s : PickerState) : PickerState :=
  if s.modalActive then s
  else
    let s1 := deleteSelectedFile env s
    if s1.visibleFiles.isEmpty then
      let s2 := if !s1.destroyed then { s1 with destroyed := true } else s1
      resolveWith s2 none
    else s1

/-! ## Preservation lemmas: the cache loaders never touch the selection,
the page slice, the visible list or (for the preview loader) the metadata
cache. -/

theorem updatePreviewForIndex_selectedIndex (parse : String → Option ParseResult)
    (idx : Int) (s : PickerState) :
    (updatePreviewForIndex parse idx s).selectedIndex = s.selectedIndex := by
  simp only [updatePreviewForIndex]
  repeat' split
  all_goals rfl

theorem updatePreviewForIndex_pageItems (parse : String → Option ParseResult)
    (idx : Int) (s : PickerState) :
    (updatePreviewForIndex parse idx s).pageItems = s.pageItems := by
  simp only [updatePreviewForIndex]
  repeat' split
  all_goals rfl

theorem updatePreviewForIndex_visibleFiles (parse : String → Option ParseResult)
    (idx : Int) (s : PickerState) :
    (updatePreviewForIndex parse idx s).visibleFiles = s.visibleFiles := by
  simp only [updatePreviewForIndex]
  repeat' split
  all_goals rfl

theorem updatePreviewForIndex_metaCache (parse : String → Option ParseResult)
    (idx : Int) (s : PickerState) :
    (updatePreviewForIndex parse idx s).metaCache = s.metaCache := by
  simp only [updatePreviewForIndex]
  repeat' split
  all_goals rfl

theorem loadMeta_selectedIndex (fetch : String → Option SessionMeta) (i : Int)
    (s : PickerState) : (loadMeta fetch i s).selectedIndex = s.selectedIndex := by
  simp only [loadMeta]
  repeat' split
  all_goals rfl

theorem loadMeta_pageItems (fetch : String → Option SessionMeta) (i : Int)
    (s : PickerState) : (loadMeta fetch i s).pageItems = s.pageItems := by
  simp only [loadMeta]
  repeat' split
  all_goals rfl

theorem loadSummary_selectedIndex (parse : String → Option ParseResult) (i : Int)
    (s : PickerState) : (loadSummary parse i s).selectedIndex = s.selectedIndex := by
  simp only [loadSummary]
  repeat' split
  all_goals rfl

theorem loadSummary_pageItems (parse : String → Option ParseResult) (i : Int)
    (s : PickerState) : (loadSummary parse i s).pageItems = s.pageItems := by
  simp only [loadSummary]
  repeat' split
  all_goals rfl

/-- In `Browsing` (no modal), the nav handler sets the selection to the
clamped `navTarget` and leaves the page slice unchanged (the rest of the
handler only touches caches and the preview box). -/
theorem pressNav_spec (fetch : String → Option SessionMeta)
    (parse : String → Option ParseResult) (k : NavKey) (s : PickerState)
    (hmodal : s.modalActive = false)
    (h1 : 0 ≤ navTarget k (s.pageItems.length : Int) s.selectedIndex)
    (h2 : navTarget k (s.pageItems.length : Int) s.selectedIndex
      < (s.pageItems.length : Int)) :
    (pressNav fetch parse k s).selectedIndex
      = navTarget k (s.pageItems.length : Int) s.selectedIndex ∧
    (pressNav fetch parse k s).pageItems = s.pageItems := by
  have hset : setSelectedIndexSt s (navTarget k ((s.pageItems.length : Int)) s.selectedIndex)
      = { s with selectedIndex := navTarget k ((s.pageItems.length : Int)) s.selectedIndex } := by
    unfold setSelectedIndexSt
    rw [if_neg (by omega)]
  simp only [pressNav, hmodal, Bool.false_eq_true, if_false, hset]
  constructor
  · simp only [apply_ite PickerState.selectedIndex, updatePreviewForIndex_selectedIndex,
      loadMeta_selectedIndex, loadSummary_selectedIndex, ite_self]
  · simp only [apply_ite PickerState.pageItems, updatePreviewForIndex_pageItems,
      loadMeta_pageItems, loadSummary_pageItems, ite_self]

/-- C1: in the Browsing state, every navigation key (up, down, page-up,
page-down, home, end) keeps `0 ≤ selectedIndex < pageItems.length` whenever
it held before and the page is non-empty; in particular `down` on the last
item leaves the selection on the last index (clamps, does not wrap). -/
theorem navKeepsSelectionInRange (fetch : String → Option SessionMeta)
    (parse : String → Option ParseResult) (k : NavKey) (s : PickerState)
    (hmodal : s.modalActive = false)
    (hne : s.pageItems ≠ [])
    (h0 : 0 ≤ s.selectedIndex)
    (hlt : s.selectedIndex < (s.pageItems.length : Int)) :
    0 ≤ (pressNav fetch parse k s).selectedIndex ∧
    (pressNav fetch parse k s).selectedIndex
      < ((pressNav fetch parse k s).pageItems.length : Int) ∧
    (k = NavKey.down → s.selectedIndex = (s.pageItems.length : Int) - 1 →
      (pressNav fetch parse k s).selectedIndex = s.selectedIndex) := by
  have hlen : 0 < s.pageItems.length := List.length_pos.mpr hne
  have hlen2 : 1 ≤ (s.pageItems.length : Int) := by exact_mod_cast hlen
  have hr1 : 0 ≤ navTarget k (s.pageItems.length : Int) s.selectedIndex := by
    cases k <;> simp only [navTarget] <;> omega
  have hr2 : navTarget k (s.pageItems.length : Int) s.selectedIndex
      < (s.pageItems.length : Int) := by
    cases k <;> simp only [navTarget] <;> omega
  obtain ⟨ha, hb⟩ := pressNav_spec fetch parse k s hmodal hr1 hr2
  refine ⟨?_, ?_, ?_⟩
  · rw [ha]; exact hr1
  · rw [ha, hb]; exact hr2
  · intro hk hsel
    subst hk
    rw [ha]
    simp only [navTarget]
    omega

/-! ## Lemmas about the deletion transition -/

theorem setSelectedIndexSt_pageItems (s : PickerState) (idx : Int) :
    (setSelectedIndexSt s idx).pageItems = s.pageItems := by
  unfold setSelectedIndexSt; split <;> rfl

theorem setSelectedIndexSt_metaCache (s : PickerState) (idx : Int) :
    (setSelectedIndexSt s idx).metaCache = s.metaCache := by
  unfold setSelectedIndexSt; split <;> rfl

theorem setSelectedIndexSt_msgSummaryCache (s : PickerState) (idx : Int) :
    (setSelectedIndexSt s idx).msgSummaryCache = s.msgSummaryCache := by
  unfold setSelectedIndexSt; split <;> rfl

theorem setSelectedIndexSt_previewCache (s : PickerState) (idx : Int) :
    (setSelectedIndexSt s idx).previewCache = s.previewCache := by
  unfold setSelectedIndexSt; split <;> rfl

theorem setSelectedIndexSt_visibleFiles (s : PickerState) (idx : Int) :
    (setSelectedIndexSt s idx).visibleFiles = s.visibleFiles := by
  unfold setSelectedIndexSt; split <;> rfl

theorem setSelectedIndexSt_selectedIndex (s : PickerState) (idx : Int) :
    (setSelectedIndexSt s idx).selectedIndex
      = if idx < 0 ∨ (s.pageItems.length : Int) ≤ idx then s.selectedIndex else idx := by
  unfold setSelectedIndexSt; split <;> rfl

theorem warmMetaForDialog_visibleFiles (fm : Option SessionMeta) (f : SessionFile)
    (s : PickerState) : (warmMetaForDialog fm f s).visibleFiles = s.visibleFiles := by
  simp only [warmMetaForDialog]; repeat' split
  all_goals rfl

theorem warmMetaForDialog_selectedIndex (fm : Option SessionMeta) (f : SessionFile)
    (s : PickerState) : (warmMetaForDialog fm f s).selectedIndex = s.selectedIndex := by
  simp only [warmMetaForDialog]; repeat' split
  all_goals rfl

theorem warmMetaForDialog_pageItems (fm : Option SessionMeta) (f : SessionFile)
    (s : PickerState) : (warmMetaForDialog fm f s).pageItems = s.pageItems := by
  simp only [warmMetaForDialog]; repeat' split
  all_goals rfl

theorem warmMetaForDialog_currentPage (fm : Option SessionMeta) (f : SessionFile)
    (s : PickerState) : (warmMetaForDialog fm f s).currentPage = s.currentPage := by
  simp only [warmMetaForDialog]; repeat' split
  all_goals rfl

theorem warmMetaForDialog_msgSummaryCache (fm : Option SessionMeta) (f : SessionFile)
    (s : PickerState) :
    (warmMetaForDialog fm f s).msgSummaryCache = s.msgSummaryCache := by
  simp only [warmMetaForDialog]; repeat' split
  all_goals rfl

theorem warmMetaForDialog_previewCache (fm : Option SessionMeta) (f : SessionFile)
    (s : PickerState) : (warmMetaForDialog fm f s).previewCache = s.previewCache := by
  simp only [warmMetaForDialog]; repeat' split
  all_goals rfl

theorem warmMetaForDialog_destroyed (fm : Option SessionMeta) (f : SessionFile)
    (s : PickerState) : (warmMetaForDialog fm f s).destroyed = s.destroyed := by
  simp only [warmMetaForDialog]; repeat' split
  all_goals rfl

theorem warmMetaForDialog_resolved (fm : Option SessionMeta) (f : SessionFile)
    (s : PickerState) : (warmMetaForDialog fm f s).resolved = s.resolved := by
  simp only [warmMetaForDialog]; repeat' split
  all_goals rfl

theorem warmMetaForDialog_notice (fm : Option SessionMeta) (f : SessionFile)
    (s : PickerState) : (warmMetaForDialog fm f s).notice = s.notice := by
  simp only [warmMetaForDialog]; repeat' split
  all_goals rfl

theorem warmMetaForDialog_modalActive (fm : Option SessionMeta) (f : SessionFile)
    (s : PickerState) : (warmMetaForDialog fm f s).modalActive = s.modalActive := by
  simp only [warmMetaForDialog]; repeat' split
  all_goals rfl

theorem warmMetaForDialog_modals (fm : Option SessionMeta) (f : SessionFile)
    (s : PickerState) : (warmMetaForDialog fm f s).modals = s.modals := by
  simp only [warmMetaForDialog]; repeat' split
  all_goals rfl

/-- When the metadata cache already holds the selected path, the warm-up is
the identity. -/
theorem warmMetaForDialog_of_warm (fm : Option SessionMeta) (f : SessionFile)
    (s : PickerState) (h : (alGet s.metaCache f.path).isSome = true) :
    warmMetaForDialog fm f s = s := by
  unfold warmMetaForDialog
  cases hg : alGet s.metaCache f.path with
  | some m => rfl
  | none => rw [hg] at h; cases h

/-- The warm-up either leaves the metadata cache alone or inserts the fetched
quick meta for the selected path on a miss. -/
theorem warmMetaForDialog_metaCache (fm : Option SessionMeta) (f : SessionFile)
    (s : PickerState) :
    (warmMetaForDialog fm f s).metaCache = s.metaCache ∨
    (∃ m, fm = some m ∧ alGet s.metaCache f.path = none ∧
      (warmMetaForDialog fm f s).metaCache = alSet s.metaCache f.path m) := by
  unfold warmMetaForDialog
  cases hg : alGet s.metaCache f.path with
  | some m => exact Or.inl rfl
  | none =>
    cases fm with
    | some m => exact Or.inr ⟨m, rfl, rfl, rfl⟩
    | none => exact Or.inl rfl

/-- Reduction of `deleteSelectedFile` when a file is selected. -/
theorem deleteSelectedFile_eq (env : DeleteEnv) (s : PickerState) (f : SessionFile)
    (hsel : selectedFile s = some f) :
    deleteSelectedFile env s =
      (if !env.confirmed then warmMetaForDialog env.fetchMeta f s
       else if !env.unlinkOk then
         { warmMetaForDialog env.fetchMeta f s with notice := some env.unlinkErr }
       else deleteApply env.parse f (warmMetaForDialog env.fetchMeta f s)) := by
  unfold deleteSelectedFile
  rw [hsel]

theorem mem_of_getElem? {α : Type} {l : List α} {i : Nat} {a : α}
    (h : l[i]? = some a) : a ∈ l := by
  rw [List.getElem?_eq_some] at h
  obtain ⟨hi, rfl⟩ := h
  exact List.getElem_mem hi

/-- The preview loader only ever inserts the summary of a page item: the
summary of any other path stays absent. -/
theorem updatePreviewForIndex_summary_other (parse : String → Option ParseResult)
    (idx : Int) (s : PickerState) (p : String)
    (hp : ∀ g ∈ s.pageItems, g.path ≠ p)
    (h : alGet s.msgSummaryCache p = none) :
    alGet (updatePreviewForIndex parse idx s).msgSummaryCache p = none := by
  unfold updatePreviewForIndex
  split
  · exact h
  · cases hg : s.pageItems[idx.toNat]? with
    | none => simp only [hg]; exact h
    | some f =>
      simp only [hg]
      have hfp : f.path ≠ p := hp f (mem_of_getElem? hg)
      cases hc : alGet s.previewCache (f.path ++ "::" ++ natStr (getPreviewInnerWidth s)) with
      | some body => simp only [hc]; exact h
      | none =>
        simp only [hc]
        cases hparse : parse f.path with
        | none => simp only [hparse]; exact h
        | some parsed =>
          simp only [hparse]
          rw [alGet_set_ne _ _ _ _ (Ne.symm hfp)]
          exact h

/-- The preview loader only ever inserts the preview of a page item at the
current width: preview-cache keys of any other path stay absent. -/
theorem updatePreviewForIndex_preview_other (parse : String → Option ParseResult)
    (idx : Int) (s : PickerState) (p : String) (w : Nat)
    (hp : ∀ g ∈ s.pageItems, g.path ≠ p)
    (h : alGet s.previewCache (p ++ "::" ++ natStr w) = none) :
    alGet (updatePreviewForIndex parse idx s).previewCache (p ++ "::" ++ natStr w)
      = none := by
  unfold updatePreviewForIndex
  split
  · exact h
  · cases hg : s.pageItems[idx.toNat]? with
    | none => simp only [hg]; exact h
    | some f =>
      simp only [hg]
      have hfp : f.path ≠ p := hp f (mem_of_getElem? hg)
      cases hc : alGet s.previewCache (f.path ++ "::" ++ natStr (getPreviewInnerWidth s)) with
      | some body => simp only [hc]; exact h
      | none =>
        simp only [hc]
        cases hparse : parse f.path with
        | none => simp only [hparse]; exact h
        | some parsed =>
          simp only [hparse]
          have hkey : (p ++ "::" ++ natStr w)
              ≠ (f.path ++ "::" ++ natStr (getPreviewInnerWidth s)) := by
            intro heq
            exact hfp (cacheKey_path_inj p f.path w (getPreviewInnerWidth s) heq).symm
          rw [alGet_set_ne _ _ _ _ hkey]
          exact h

/-- After a successful unlink that leaves other files visible, the selected
path is purged from all three caches, removed from `visibleFiles`, the new
page slice is non-empty and the selection is clamped to the nearest valid
index of the recomputed page. -/
theorem deleteApply_spec (parse : String → Option ParseResult) (f : SessionFile)
    (s0 : PickerState)
    (hne : s0.visibleFiles.filter (fun it => it.path != f.path) ≠ []) :
    alGet (deleteApply parse f s0).metaCache f.path = none ∧
    alGet (deleteApply parse f s0).msgSummaryCache f.path = none ∧
    (∀ w : Nat, alGet (deleteApply parse f s0).previewCache
        (f.path ++ "::" ++ natStr w) = none) ∧
    (deleteApply parse f s0).visibleFiles
      = s0.visibleFiles.filter (fun it => it.path != f.path) ∧
    (deleteApply parse f s0).pageItems ≠ [] ∧
    (deleteApply parse f s0).selectedIndex
      = max 0 (min s0.selectedIndex
          (((deleteApply parse f s0).pageItems.length : Int) - 1)) ∧
    0 ≤ (deleteApply parse f s0).selectedIndex ∧
    (deleteApply parse f s0).selectedIndex
      < ((deleteApply parse f s0).pageItems.length : Int) := by
  have hL : 0 < (s0.visibleFiles.filter (fun it => it.path != f.path)).length :=
    List.length_pos.mpr hne
  have hie : ¬ ((s0.visibleFiles.filter (fun it => it.path != f.path)).isEmpty = true) := by
    simp [List.isEmpty_iff, hne]
  refine ⟨?_, ?_, ?_, ?_, ?_, ?_, ?_, ?_⟩
  · simp only [deleteApply]
    rw [if_neg hie]
    simp only [updatePreviewForIndex_metaCache, setSelectedIndexSt_metaCache,
      updatePageItems, apply_ite PickerState.metaCache, ite_self]
    exact alGet_delete _ _
  · simp only [deleteApply]
    rw [if_neg hie]
    apply updatePreviewForIndex_summary_other
    · intro g hg
      simp only [setSelectedIndexSt_pageItems, updatePageItems,
        apply_ite PickerState.visibleFiles, apply_ite PickerState.currentPage,
        ite_self] at hg
      have hg3 := List.Sublist.mem (List.Sublist.mem hg (List.take_sublist _ _))
        (List.drop_sublist _ _)
      have hg4 := (List.mem_filter.mp hg3).2
      simpa using hg4
    · simp only [setSelectedIndexSt_msgSummaryCache, updatePageItems,
        apply_ite PickerState.msgSummaryCache, ite_self]
      exact alGet_delete _ _
  · intro w
    simp only [deleteApply]
    rw [if_neg hie]
    apply updatePreviewForIndex_preview_other
    · intro g hg
      simp only [setSelectedIndexSt_pageItems, updatePageItems,
        apply_ite PickerState.visibleFiles, apply_ite PickerState.currentPage,
        ite_self] at hg
      have hg3 := List.Sublist.mem (List.Sublist.mem hg (List.take_sublist _ _))
        (List.drop_sublist _ _)
      have hg4 := (List.mem_filter.mp hg3).2
      simpa using hg4
    · simp only [setSelectedIndexSt_previewCache, updatePageItems,
        apply_ite PickerState.previewCache, ite_self]
      exact alGet_filter_not_pred _ (fun key => strStartsWith key (f.path ++ "::")) _
        (strStartsWith_append _ _)
  · simp only [deleteApply]
    rw [if_neg hie]
    simp only [updatePreviewForIndex_visibleFiles, setSelectedIndexSt_visibleFiles,
      updatePageItems, apply_ite PickerState.visibleFiles, ite_self]
  · simp only [deleteApply]
    rw [if_neg hie]
    simp only [updatePreviewForIndex_pageItems, setSelectedIndexSt_pageItems,
      updatePageItems, apply_ite PickerState.visibleFiles,
      apply_ite PickerState.currentPage, ite_self]
    rw [← List.length_pos, List.length_take, List.length_drop]
    simp only [ITEMS_PER_PAGE] at *
    split_ifs with h <;> omega
  · simp only [deleteApply]
    rw [if_neg hie]
    simp only [updatePreviewForIndex_selectedIndex, updatePreviewForIndex_pageItems,
      setSelectedIndexSt_selectedIndex, setSelectedIndexSt_pageItems, updatePageItems,
      apply_ite PickerState.selectedIndex, apply_ite PickerState.visibleFiles,
      apply_ite PickerState.currentPage, ite_self]
    rw [List.length_take, List.length_drop]
    simp only [ITEMS_PER_PAGE]
    split_ifs with h1 h2 <;> omega
  · simp only [deleteApply]
    rw [if_neg hie]
    simp only [updatePreviewForIndex_selectedIndex,
      setSelectedIndexSt_selectedIndex, setSelectedIndexSt_pageItems, updatePageItems,
      apply_ite PickerState.selectedIndex, apply_ite PickerState.visibleFiles,
      apply_ite PickerState.currentPage, ite_self]
    rw [List.length_take, List.length_drop]
    simp only [ITEMS_PER_PAGE]
    split_ifs with h1 h2 <;> omega
  · simp only [deleteApply]
    rw [if_neg hie]
    simp only [updatePreviewForIndex_selectedIndex, updatePreviewForIndex_pageItems,
      setSelectedIndexSt_selectedIndex, setSelectedIndexSt_pageItems, updatePageItems,
      apply_ite PickerState.selectedIndex, apply_ite PickerState.visibleFiles,
      apply_ite PickerState.currentPage, ite_self]
    rw [List.length_take, List.length_drop]
    simp only [ITEMS_PER_PAGE]
    split_ifs with h1 h2 <;> omega


/-- When deletion empties the visible list, `deleteSelectedFile` purges the
caches, empties `visibleFiles`, and tears the screen down (`destroyed`)
without touching page or selection. -/
theorem deleteApply_empty (parse : String → Option ParseResult) (f : SessionFile)
    (s0 : PickerState)
    (hemp : s0.visibleFiles.filter (fun it => it.path != f.path) = []) :
    deleteApply parse f s0 = { s0 with
      metaCache := alDelete s0.metaCache f.path,
      msgSummaryCache := alDelete s0.msgSummaryCache f.path,
      previewCache := s0.previewCache.filter
        (fun p => !(strStartsWith p.1 (f.path ++ "::"))),
      visibleFiles := [],
      destroyed := true } := by
  simp only [deleteApply]
  rw [hemp]
  rfl

/-- C2: a confirmed deletion of the selected file that leaves other files
visible purges the deleted path from the metadata, summary and preview
caches, removes it from `visibleFiles`, and clamps the selection to the
nearest valid index of the recomputed (non-empty) page; answering "No"
instead leaves the state unchanged (given the quick meta of the selected
file is already cached, as after its row was prefetched or selected). -/
theorem confirmedDeletePurgesAndClamps (env : DeleteEnv) (s : PickerState)
    (f : SessionFile)
    (hmodal : s.modalActive = false)
    (hsel : selectedFile s = some f) :
    (env.confirmed = false → s.visibleFiles ≠ [] →
      (alGet s.metaCache f.path).isSome = true → pressD env s = s) ∧
    (env.confirmed = true → env.unlinkOk = true →
      s.visibleFiles.filter (fun it => it.path != f.path) ≠ [] →
      alGet (pressD env s).metaCache f.path = none ∧
      alGet (pressD env s).msgSummaryCache f.path = none ∧
      (∀ w : Nat, alGet (pressD env s).previewCache
          (f.path ++ "::" ++ natStr w) = none) ∧
      (pressD env s).visibleFiles
        = s.visibleFiles.filter (fun it => it.path != f.path) ∧
      (pressD env s).pageItems ≠ [] ∧
      (pressD env s).selectedIndex
        = max 0 (min s.selectedIndex (((pressD env s).pageItems.length : Int) - 1)) ∧
      0 ≤ (pressD env s).selectedIndex ∧
      (pressD env s).selectedIndex < ((pressD env s).pageItems.length : Int)) := by
  constructor
  · intro hc hvne hwarm
    have hws := warmMetaForDialog_of_warm env.fetchMeta f s hwarm
    have hds : deleteSelectedFile env s = s := by
      rw [deleteSelectedFile_eq env s f hsel]
      simp only [hc, Bool.not_false, if_true, hws]
    simp only [pressD, hmodal, Bool.false_eq_true, if_false, hds]
    rw [if_neg (by simp [List.isEmpty_iff, hvne])]
  · intro hc hu hne
    have hvf0 : (warmMetaForDialog env.fetchMeta f s).visibleFiles = s.visibleFiles :=
      warmMetaForDialog_visibleFiles _ _ _
    have hsel0 : (warmMetaForDialog env.fetchMeta f s).selectedIndex = s.selectedIndex :=
      warmMetaForDialog_selectedIndex _ _ _
    have hne0 : (warmMetaForDialog env.fetchMeta f s).visibleFiles.filter
        (fun it => it.path != f.path) ≠ [] := by rw [hvf0]; exact hne
    have hspec := deleteApply_spec env.parse f (warmMetaForDialog env.fetchMeta f s) hne0
    have hds : deleteSelectedFile env s
        = deleteApply env.parse f (warmMetaForDialog env.fetchMeta f s) := by
      rw [deleteSelectedFile_eq env s f hsel]
      simp only [hc, hu, Bool.not_true, Bool.false_eq_true, if_false]
    have h4 := hspec.2.2.2.1
    rw [hvf0] at h4
    have hpd : pressD env s
        = deleteApply env.parse f (warmMetaForDialog env.fetchMeta f s) := by
      simp only [pressD, hmodal, Bool.false_eq_true, if_false, hds]
      rw [if_neg (by simp [List.isEmpty_iff, h4, hne])]
    rw [hpd]
    have h6 := hspec.2.2.2.2.2.1
    rw [hsel0] at h6
    exact ⟨hspec.1, hspec.2.1, hspec.2.2.1, h4, hspec.2.2.2.2.1, h6,
      hspec.2.2.2.2.2.2.1, hspec.2.2.2.2.2.2.2⟩

/-- C3 (amended): when `fs.unlink` throws on a confirmed deletion, the picker
shows the dismissible "Delete Failed" notice and stays in Browsing with
`visibleFiles`, `pageItems`, `currentPage`, `selectedIndex`, the summary
cache and the preview cache untouched; the metadata cache is also untouched
except that, when it had no entry for the selected path, it may now hold the
quick meta fetched (before the confirmation dialog) to display the id. -/
theorem failedDeleteShowsNoticeNoMutation (env : DeleteEnv) (s : PickerState)
    (f : SessionFile)
    (hmodal : s.modalActive = false)
    (hsel : selectedFile s = some f)
    (hc : env.confirmed = true)
    (hu : env.unlinkOk = false)
    (hvne : s.visibleFiles ≠ []) :
    (pressD env s).notice = some env.unlinkErr ∧
    (pressD env s).destroyed = s.destroyed ∧
    (pressD env s).resolved = s.resolved ∧
    (pressD env s).modalActive = false ∧
    (pressD env s).modals = s.modals ∧
    (pressD env s).visibleFiles = s.visibleFiles ∧
    (pressD env s).pageItems = s.pageItems ∧
    (pressD env s).currentPage = s.currentPage ∧
    (pressD env s).selectedIndex = s.selectedIndex ∧
    (pressD env s).msgSummaryCache = s.msgSummaryCache ∧
    (pressD env s).previewCache = s.previewCache ∧
    ((pressD env s).metaCache = s.metaCache ∨
      (∃ m, env.fetchMeta = some m ∧ alGet s.metaCache f.path = none ∧
        (pressD env s).metaCache = alSet s.metaCache f.path m)) := by
  have hds : deleteSelectedFile env s
      = { warmMetaForDialog env.fetchMeta f s with notice := some env.unlinkErr } := by
    rw [deleteSelectedFile_eq env s f hsel]
    simp only [hc, hu, Bool.not_true, Bool.not_false, Bool.false_eq_true,
      if_false, if_true]
  have hpd : pressD env s
      = { warmMetaForDialog env.fetchMeta f s with notice := some env.unlinkErr } := by
    simp only [pressD, hmodal, Bool.false_eq_true, if_false, hds]
    rw [if_neg (by simp [warmMetaForDialog_visibleFiles, List.isEmpty_iff, hvne])]
  rw [hpd]
  refine ⟨rfl, warmMetaForDialog_destroyed _ _ _, warmMetaForDialog_resolved _ _ _,
    (warmMetaForDialog_modalActive _ _ _).trans hmodal,
    warmMetaForDialog_modals _ _ _, warmMetaForDialog_visibleFiles _ _ _,
    warmMetaForDialog_pageItems _ _ _, warmMetaForDialog_currentPage _ _ _,
    warmMetaForDialog_selectedIndex _ _ _, warmMetaForDialog_msgSummaryCache _ _ _,
    warmMetaForDialog_previewCache _ _ _, warmMetaForDialog_metaCache _ _ _⟩

/-- C9: a confirmed deletion of the only remaining file terminates the
picker (screen destroyed, promise resolved with `null`, i.e. no Action) and
leaves no cache entry for the deleted path in any of the three caches, so no
lookup after the transition can hit it. -/
theorem deleteLastTerminatesWithNull (env : DeleteEnv) (s : PickerState)
    (f : SessionFile)
    (hmodal : s.modalActive = false)
    (hsel : selectedFile s = some f)
    (hc : env.confirmed = true)
    (hu : env.unlinkOk = true)
    (hemp : s.visibleFiles.filter (fun it => it.path != f.path) = [])
    (hres : s.resolved = none) :
    (pressD env s).destroyed = true ∧
    (pressD env s).resolved = some none ∧
    alGet (pressD env s).metaCache f.path = none ∧
    alGet (pressD env s).msgSummaryCache f.path = none ∧
    (∀ w : Nat, alGet (pressD env s).previewCache
        (f.path ++ "::" ++ natStr w) = none) ∧
    (pressD env s).visibleFiles = [] := by
  have hemp0 : (warmMetaForDialog env.fetchMeta f s).visibleFiles.filter
      (fun it => it.path != f.path) = [] := by
    rw [warmMetaForDialog_visibleFiles]; exact hemp
  have hres0 : (warmMetaForDialog env.fetchMeta f s).resolved = none := by
    rw [warmMetaForDialog_resolved]; exact hres
  have happ := deleteApply_empty env.parse f (warmMetaForDialog env.fetchMeta f s) hemp0
  have hds : deleteSelectedFile env s
      = { warmMetaForDialog env.fetchMeta f s with
          metaCache := alDelete (warmMetaForDialog env.fetchMeta f s).metaCache f.path,
          msgSummaryCache :=
            alDelete (warmMetaForDialog env.fetchMeta f s).msgSummaryCache f.path,
          previewCache := (warmMetaForDialog env.fetchMeta f s).previewCache.filter
            (fun p => !(strStartsWith p.1 (f.path ++ "::"))),
          visibleFiles := [],
          destroyed := true } := by
    rw [deleteSelectedFile_eq env s f hsel]
    simp only [hc, hu, Bool.not_true, Bool.false_eq_true, if_false]
    exact happ
  have hpd : pressD env s
      = { warmMetaForDialog env.fetchMeta f s with
          metaCache := alDelete (warmMetaForDialog env.fetchMeta f s).metaCache f.path,
          msgSummaryCache :=
            alDelete (warmMetaForDialog env.fetchMeta f s).msgSummaryCache f.path,
          previewCache := (warmMetaForDialog env.fetchMeta f s).previewCache.filter
            (fun p => !(strStartsWith p.1 (f.path ++ "::"))),
          visibleFiles := [],
          destroyed := true,
          resolved := some none } := by
    simp only [pressD, hmodal, Bool.false_eq_true, if_false, hds]
    simp only [List.isEmpty_nil, if_true, Bool.not_true, Bool.false_eq_true, if_false,
      resolveWith, hres0]
  rw [hpd]
  refine ⟨rfl, rfl, alGet_delete _ _, alGet_delete _ _, ?_, rfl⟩
  intro w
  exact alGet_filter_not_pred _ (fun key => strStartsWith key (f.path ++ "::")) _
    (strStartsWith_append _ _)

/-! ## Concrete fixtures for witnesses and counterexamples -/

def fileA : SessionFile := { path := "/s/A.jsonl", rel := "A.jsonl", mtime := 3 }

def fileB : SessionFile := { path := "/s/B.jsonl", rel := "B.jsonl", mtime := 2 }

def fileC : SessionFile := { path := "/s/C.jsonl", rel := "C.jsonl", mtime := 1 }

def noFetch : String → Option SessionMeta := fun _ => none

def noParse : String → Option ParseResult := fun _ => none

/-- A Browsing state on one page of three files A, B, C with C selected
(the spec's example scenario), quick meta for C already cached. -/
def browseState : PickerState := {
  visibleFiles := [fileA, fileB, fileC]
  currentPage := 0
  pageItems := [fileA, fileB, fileC]
  selectedIndex := 2
  fullView := false
  leftW := 35
  screenWidth := 100
  modalActive := false
  modals := []
  grabKeys := false
  destroyed := false
  resolved := none
  metaCache := [(fileC.path, {})]
  msgSummaryCache := [(fileC.path, ⟨4, "Assistant"⟩)]
  previewCache := [("/s/C.jsonl::62", "pc"), ("/s/A.jsonl::62", "pa")]
  previewContent := "pc"
  editedArgs := ""
  notice := none
  hide := []
  workspaceMode := false }

/-- `browseState` with a single remaining file C. -/
def oneFileState : PickerState := { browseState with
  visibleFiles := [fileC]
  pageItems := [fileC]
  selectedIndex := 0
  msgSummaryCache := [(fileC.path, ⟨1, "User"⟩)]
  previewCache := [("/s/C.jsonl::62", "pc")] }

/-- `browseState` with an empty metadata cache. -/
def coldState : PickerState := { browseState with metaCache := [] }

/-- Deletion environment: dialog answered Yes, `fs.unlink` succeeds. -/
def envYes : DeleteEnv :=
  { fetchMeta := none, confirmed := true, unlinkOk := true, unlinkErr := "",
    parse := noParse }

/-- Deletion environment: dialog answered No. -/
def envNo : DeleteEnv :=
  { fetchMeta := none, confirmed := false, unlinkOk := true, unlinkErr := "",
    parse := noParse }

/-- Deletion environment: dialog answered Yes, quick meta fetch succeeds,
`fs.unlink` throws. -/
def envFail : DeleteEnv :=
  { fetchMeta := some {}, confirmed := true, unlinkOk := false,
    unlinkErr := "EACCES", parse := noParse }

/-- Witness for C1: pressing `down` with the last item (C, index 2) selected
keeps the selection at index 2 — in range, clamped, no wrap. -/
theorem navKeepsSelectionInRange_witness :
    0 ≤ (pressNav noFetch noParse NavKey.down browseState).selectedIndex ∧
    (pressNav noFetch noParse NavKey.down browseState).selectedIndex
      < ((pressNav noFetch noParse NavKey.down browseState).pageItems.length : Int) ∧
    (NavKey.down = NavKey.down →
      browseState.selectedIndex = (browseState.pageItems.length : Int) - 1 →
      (pressNav noFetch noParse NavKey.down browseState).selectedIndex
        = browseState.selectedIndex) :=
  navKeepsSelectionInRange noFetch noParse NavKey.down browseState rfl
    (by decide) (by decide) (by decide)

/-- Witness for C2 at the spec's example scenario (list A, B, C with C
selected): answering No leaves the state unchanged; answering Yes purges
C's entries from the three caches, removes C from `visibleFiles` and clamps
the selection. -/
theorem confirmedDeletePurgesAndClamps_witness :
    pressD envNo browseState = browseState ∧
    (alGet (pressD envYes browseState).metaCache fileC.path = none ∧
     alGet (pressD envYes browseState).msgSummaryCache fileC.path = none ∧
     (∀ w : Nat, alGet (pressD envYes browseState).previewCache
         (fileC.path ++ "::" ++ natStr w) = none) ∧
     (pressD envYes browseState).visibleFiles
       = browseState.visibleFiles.filter (fun it => it.path != fileC.path) ∧
     (pressD envYes browseState).pageItems ≠ [] ∧
     (pressD envYes browseState).selectedIndex
       = max 0 (min browseState.selectedIndex
           (((pressD envYes browseState).pageItems.length : Int) - 1)) ∧
     0 ≤ (pressD envYes browseState).selectedIndex ∧
     (pressD envYes browseState).selectedIndex
       < ((pressD envYes browseState).pageItems.length : Int)) :=
  ⟨(confirmedDeletePurgesAndClamps envNo browseState fileC rfl (by decide)).1
      rfl (by decide) (by decide),
   (confirmedDeletePurgesAndClamps envYes browseState fileC rfl (by decide)).2
      rfl rfl (by decide)⟩

/-- Counterexample for C3 as stated: with a cold metadata cache, a confirmed
deletion whose `fs.unlink` throws still mutates the metadata cache — the
quick meta of the selected path is fetched and cached before the dialog to
display the id — so the caches are NOT "exactly as before the delete
attempt". (The notice does appear and everything else is untouched, per the
amended theorem.) -/
theorem failedDeleteMutatesMetaCache_cex :
    (pressD envFail coldState).notice = some ("EACCES") ∧
    (pressD envFail coldState).metaCache ≠ coldState.metaCache := by
  constructor <;> decide

/-- Witness for the amended C3 at a concrete input: warm cache, unlink
throws — notice shown, nothing mutated (metadata cache falls in the
unchanged disjunct). -/
theorem failedDeleteShowsNoticeNoMutation_witness :
    (pressD envFail browseState).notice = some envFail.unlinkErr ∧
    (pressD envFail browseState).destroyed = browseState.destroyed ∧
    (pressD envFail browseState).resolved = browseState.resolved ∧
    (pressD envFail browseState).modalActive = false ∧
    (pressD envFail browseState).modals = browseState.modals ∧
    (pressD envFail browseState).visibleFiles = browseState.visibleFiles ∧
    (pressD envFail browseState).pageItems = browseState.pageItems ∧
    (pressD envFail browseState).currentPage = browseState.currentPage ∧
    (pressD envFail browseState).selectedIndex = browseState.selectedIndex ∧
    (pressD envFail browseState).msgSummaryCache = browseState.msgSummaryCache ∧
    (pressD envFail browseState).previewCache = browseState.previewCache ∧
    ((pressD envFail browseState).metaCache = browseState.metaCache ∨
      (∃ m, envFail.fetchMeta = some m ∧
        alGet browseState.metaCache fileC.path = none ∧
        (pressD envFail browseState).metaCache
          = alSet browseState.metaCache fileC.path m)) :=
  failedDeleteShowsNoticeNoMutation envFail browseState fileC rfl (by decide)
    rfl rfl (by decide)

/-- Witness for C9: deleting the sole remaining file C terminates the picker
with `null` and leaves no cache entry for C. -/
theorem deleteLastTerminatesWithNull_witness :
    (pressD envYes oneFileState).destroyed = true ∧
    (pressD envYes oneFileState).resolved = some none ∧
    alGet (pressD envYes oneFileState).metaCache fileC.path = none ∧
    alGet (pressD envYes oneFileState).msgSummaryCache fileC.path = none ∧
    (∀ w : Nat, alGet (pressD envYes oneFileState).previewCache
        (fileC.path ++ "::" ++ natStr w) = none) ∧
    (pressD envYes oneFileState).visibleFiles = [] :=
  deleteLastTerminatesWithNull envYes oneFileState fileC rfl (by decide)
    rfl rfl (by decide) rfl

structure SchedState where
  idxLoad : Nat
  pageLen : Nat
  page : Nat
  workers : Nat
  loaded : List (Nat × Nat)
deriving DecidableEq

/-- One cooperative step of a worker loop: either claim the next index and
load it, or observe an exhausted cursor and return (the loop ends). -/
inductive SchedStep : SchedState → SchedState → Prop where
  | work : ∀ s : SchedState, 0 < s.workers → s.idxLoad < s.pageLen →
      SchedStep s { s with idxLoad := s.idxLoad + 1,
                           loaded := (s.page, s.idxLoad) :: s.loaded }
  | done : ∀ s : SchedState, 0 < s.workers → ¬ s.idxLoad < s.pageLen →
      SchedStep s { s with workers := s.workers - 1 }

/-- The scheduler effect of the left/right page handlers: reset the shared
cursor and show the new page. Faithful to the source: no new workers are
started. -/
def changePageSched (newLen : Nat) (s : SchedState) : SchedState :=
  { s with idxLoad := 0, pageLen := newLen, page := s.page + 1 }

/-- Picker start with a one-item page and the 8-worker meta pool. -/
def schedInit : SchedState :=
  { idxLoad := 0, pageLen := 1, page := 0, workers := 8, loaded := [] }

/-- The state after the pool has prefetched the whole page and every worker
loop has returned. -/
def schedDead : SchedState :=
  { idxLoad := 1, pageLen := 1, page := 0, workers := 0, loaded := [(0, 0)] }

theorem schedStep_workers_pos {s t : SchedState} (h : SchedStep s t) :
    0 < s.workers := by
  cases h with
  | work hw _ => exact hw
  | done hw _ => exact hw

/-- With no worker loop left, the scheduler is stuck. -/
theorem schedStuck {s t : SchedState} (hw : s.workers = 0)
    (h : Relation.ReflTransGen SchedStep s t) : t = s := by
  induction h with
  | refl => rfl
  | tail h1 h2 ih =>
    rw [ih] at h2
    exact absurd (schedStep_workers_pos h2) (by omega)

/-- C5 (code bug): the per-page prefetch pools are started once; a page
change only resets the shared cursors. After the pool exhausts the first
page and every worker loop has returned (a reachable schedule), pressing
right resets `idxLoad` to 0 for the new page, but no worker exists to
consume it: no state reachable from there ever loads item 0 of the new
page, contradicting the claimed restart of the scheduler with a new worker
pool (and the source's own comment "reload meta & summary for new page"). -/
theorem pageChangeDoesNotRestartWorkers_bug :
    Relation.ReflTransGen SchedStep schedInit schedDead ∧
    (∀ t, Relation.ReflTransGen SchedStep (changePageSched 1 schedDead) t →
      (1, 0) ∉ t.loaded) := by
  constructor
  · exact Relation.ReflTransGen.head (SchedStep.work ⟨0, 1, 0, 8, []⟩ (by decide) (by decide))
      (Relation.ReflTransGen.head (SchedStep.done ⟨1, 1, 0, 8, [(0, 0)]⟩ (by decide) (by decide))
      (Relation.ReflTransGen.head (SchedStep.done ⟨1, 1, 0, 7, [(0, 0)]⟩ (by decide) (by decide))
      (Relation.ReflTransGen.head (SchedStep.done ⟨1, 1, 0, 6, [(0, 0)]⟩ (by decide) (by decide))
      (Relation.ReflTransGen.head (SchedStep.done ⟨1, 1, 0, 5, [(0, 0)]⟩ (by decide) (by decide))
      (Relation.ReflTransGen.head (SchedStep.done ⟨1, 1, 0, 4, [(0, 0)]⟩ (by decide) (by decide))
      (Relation.ReflTransGen.head (SchedStep.done ⟨1, 1, 0, 3, [(0, 0)]⟩ (by decide) (by decide))
      (Relation.ReflTransGen.head (SchedStep.done ⟨1, 1, 0, 2, [(0, 0)]⟩ (by decide) (by decide))
      (Relation.ReflTransGen.head (SchedStep.done ⟨1, 1, 0, 1, [(0, 0)]⟩ (by decide) (by decide))
      Relation.ReflTransGen.refl))))))))
  · intro t ht
    have hstuck : t = changePageSched 1 schedDead := schedStuck rfl ht
    rw [hstuck]
    decide

/-- Witness for C5: the no-prefetch consequence at the concrete stuck state
itself. -/
theorem pageChangeDoesNotRestartWorkers_bug_witness :
    (1, 0) ∉ (changePageSched 1 schedDead).loaded :=
  pageChangeDoesNotRestartWorkers_bug.2 (changePageSched 1 schedDead)
    Relation.ReflTransGen.refl

/-! ## C6: the layout toggle -/

/-- A user message whose single 80-column line wraps differently at the
split-view width (62) and the full-view width (98). -/
def msgLong : Message :=
  { role := "user", text := String.mk (List.replicate 80 'a'), timestamp := none }

/-- A Browsing state showing `msgLong`'s preview rendered at the split-view
width 62 (screen width 100, `leftW` 35, split view). -/
def fullToggleState : PickerState := { browseState with
  visibleFiles := [fileA]
  pageItems := [fileA]
  selectedIndex := 0
  metaCache := []
  msgSummaryCache := []
  previewCache := []
  previewContent := buildDialogPreviewBlocks [msgLong] [] (some 62) }

/-- Counterexample for C6 as stated: toggling to full view changes the
effective preview width from 62 to 98, but the `f` handler recomputes
nothing — the displayed preview is still the width-62 rendering, which
differs from the width-98 rendering of the selected item's dialog. -/
theorem toggleLayoutDoesNotRecomputePreview_cex :
    getPreviewInnerWidth fullToggleState = 62 ∧
    getPreviewInnerWidth (pressF fullToggleState) = 98 ∧
    (pressF fullToggleState).previewContent = fullToggleState.previewContent ∧
    (pressF fullToggleState).previewContent
      ≠ buildDialogPreviewBlocks [msgLong] []
          (some (getPreviewInnerWidth (pressF fullToggleState))) := by
  refine ⟨by decide, by decide, rfl, by decide⟩

/-- C6 (amended): the `f` handler flips `layout` between split and full and
re-applies the layout geometry (recomputing `leftW` when returning to split
view), but does NOT invalidate or recompute any rendered preview: the
displayed preview text, the `(path, width)`-keyed preview cache, the
selection, the page slice and the other caches are all unchanged. The
selected item's preview is re-rendered at the new width only by the next
preview load, which misses the cache at the new width. -/
theorem toggleLayoutKeepsPreview (s : PickerState) (hmodal : s.modalActive = false) :
    (pressF s).fullView = !s.fullView ∧
    (pressF s).previewContent = s.previewContent ∧
    (pressF s).previewCache = s.previewCache ∧
    (pressF s).selectedIndex = s.selectedIndex ∧
    (pressF s).pageItems = s.pageItems ∧
    (pressF s).visibleFiles = s.visibleFiles ∧
    (pressF s).metaCache = s.metaCache ∧
    (pressF s).msgSummaryCache = s.msgSummaryCache ∧
    ((pressF s).fullView = false →
      (pressF s).leftW = max 30 (s.screenWidth * 35 / 100)) ∧
    ((pressF s).fullView = true → (pressF s).leftW = s.leftW) := by
  cases hf : s.fullView with
  | false => simp [pressF, hmodal, applyLayout, hf]
  | true => simp [pressF, hmodal, applyLayout, hf]

/-- Witness for the amended C6 at the concrete toggle state. -/
theorem toggleLayoutKeepsPreview_witness :
    (pressF fullToggleState).fullView = !fullToggleState.fullView ∧
    (pressF fullToggleState).previewContent = fullToggleState.previewContent ∧
    (pressF fullToggleState).previewCache = fullToggleState.previewCache ∧
    (pressF fullToggleState).selectedIndex = fullToggleState.selectedIndex ∧
    (pressF fullToggleState).pageItems = fullToggleState.pageItems ∧
    (pressF fullToggleState).visibleFiles = fullToggleState.visibleFiles ∧
    (pressF fullToggleState).metaCache = fullToggleState.metaCache ∧
    (pressF fullToggleState).msgSummaryCache = fullToggleState.msgSummaryCache ∧
    ((pressF fullToggleState).fullView = false →
      (pressF fullToggleState).leftW
        = max 30 (fullToggleState.screenWidth * 35 / 100)) ∧
    ((pressF fullToggleState).fullView = true →
      (pressF fullToggleState).leftW = fullToggleState.leftW) :=
  toggleLayoutKeepsPreview fullToggleState rfl

end CxPicker
